import Mathlib

/-!
Verification of pyUSIrest, a client library for the EBI USI HAL/JSON
submission API.  The definitions below are a shallow embedding of the
Python sources: pure fragments become Lean functions, stateful code is
explicit state passing, dictionaries are association lists, exceptions
are error constructors of Except or Option, and the HTTP transport is an
oracle argument (a function from URL to the document the remote end
would return).  Times are integers of microseconds, the granularity of
Python timedelta values.
-/

/-! ## Python JSON values

A minimal model of decoded JSON values as manipulated by the library:
strings, integers, booleans, lists, dictionaries and None. -/

inductive PyVal where
  | str (s : String)
  | int (n : Int)
  | bool (b : Bool)
  | list (xs : List PyVal)
  | dict (entries : List (String × PyVal))
  | null

/-! ## Token lifecycle (pyUSIrest/auth.py)

Auth.get_duration returns the Python timedelta self.expire minus now.
A timedelta is normalised so that its days attribute is the floor
division of its total length in microseconds by the number of
microseconds in one day (so a timedelta of minus 30 seconds has
days equal to minus one).  Auth.is_expired tests get_duration().days
less than zero. -/

def microsecondsPerDay : Int := 86400000000

/-- The days attribute of a Python timedelta holding total microseconds. -/
def timedelta_days (total : Int) : Int := total.fdiv microsecondsPerDay

/-- Auth.get_duration: expire minus now, in total microseconds. -/
def get_duration (expire now : Int) : Int := expire - now

/-- Auth.is_expired: get_duration().days < 0. -/
def is_expired (expire now : Int) : Bool :=
  timedelta_days (get_duration expire now) < 0

/-! ## Auth construction (pyUSIrest/auth.py, Auth.init)

With user and password the constructor performs the basic-auth
exchange; a response status other than 200 raises the authentication
failure carrying "Got status {code}: '{body}'", and no token is stored;
on 200 the returned body is stored as the token and decoded at once by
the token setter.  JWT decoding itself is the black box
decode : String -> DecodedToken. -/

structure AuthResponse where
  status : Nat
  text : String

structure DecodedToken where
  issued : Int
  expire : Int

inductive AuthResult where
  | authenticationError (message : String)
  | token (tokenString : String) (decoded : DecodedToken)

def auth_init (decode : String → DecodedToken) (resp : AuthResponse) :
    AuthResult :=
  if resp.status ≠ 200 then
    .authenticationError
      ("Got status " ++ toString resp.status ++ ": '" ++ resp.text ++ "'")
  else
    .token resp.text (decode resp.text)

/-! ## HTTP verb layer (pyUSIrest/client submodule)

The src tree carries the package pyUSIrest/client only as its
package init importing the client and document submodules; the client
submodule itself (verb dispatch with token guard and status
classification) is absent, while its exception classes
(pyUSIrest/exceptions.py), its callers (pyUSIrest/usi.py) and its tests
(tests/test_root.py, tests/test_auth.py) are present.  The definitions
below are therefore modelled from the specification. -/

structure HttpResponse where
  status : Nat
  text : String

structure ClientState where
  last_response : Option HttpResponse
  last_status_code : Option Nat

inductive RequestError where
  | tokenExpired (message : String)
  | usiConnectionError (message : String)
  | usiDataError (message : String)
  | statusMismatch (body : String)

inductive Verb where
  | get | post | patch | put | delete

/-- Modelled from the spec: the expected success codes per verb, 200
for GET, 201 for POST and 200 or 204 for PATCH, PUT and DELETE
depending on the endpoint (spec section 4.2 and section 6). -/
def expectedStatuses : Verb → List Nat
  | .get => [200]
  | .post => [201]
  | .patch => [200, 204]
  | .put => [200, 204]
  | .delete => [200, 204]

/-- Modelled from the spec: the default expected status of each verb
from the table of section 6 (GET 200, POST 201, PATCH 200, PUT 200,
DELETE 204). -/
def defaultExpected : Verb → Nat
  | .get => 200
  | .post => 201
  | .patch => 200
  | .put => 200
  | .delete => 204

/-- Modelled from the spec: status classification of a received
response (spec section 4.2): 5xx raises the ConnectionError class
failure, 4xx raises the DataError class failure, any other status
different from the expected success code raises the generic mismatch
failure carrying the response body, and exactly the expected code is a
success. -/
def check_status (resp : HttpResponse) (expected : Nat) :
    Option RequestError :=
  if resp.status / 100 = 5 then some (.usiConnectionError resp.text)
  else if resp.status / 100 = 4 then some (.usiDataError resp.text)
  else if resp.status ≠ expected then some (.statusMismatch resp.text)
  else none

/-- Modelled from the spec: one verb call (spec section 4.2).  The
expiry gate runs before any network request: with an expired token the
call fails with the TokenExpiredError carrying the message of the
token guard in src (client.py Client.check) and issues no request,
leaving the recorded last response untouched.  Otherwise one request is
issued, the response and its status are recorded for introspection and
the status is classified.  The third component counts the HTTP requests
issued. -/
def makeRequest (expired : Bool) (st : ClientState) (expected : Nat)
    (wire : HttpResponse) :
    Except RequestError HttpResponse × ClientState × Nat :=
  if expired then
    (.error (.tokenExpired "Your token is expired"), st, 0)
  else
    let st' : ClientState := ⟨some wire, some wire.status⟩
    match check_status wire expected with
    | some e => (.error e, st', 1)
    | none => (.ok wire, st', 1)

/-! # Theorems -/

/-- Claim C2: for every token, is_expired is True exactly when the
remaining time (expiresAt minus now) is negative; a remaining time of
exactly zero counts as not yet expired; and the implemented test
get_duration().days < 0 agrees with remainingTime < 0 also for
durations strictly between minus one day and zero, such as minus 30
seconds. -/
theorem C2_is_expired_iff_negative_remaining :
    (∀ expire now : Int,
      (is_expired expire now = true ↔ get_duration expire now < 0)) ∧
    (∀ t : Int, is_expired t t = false) ∧
    is_expired 0 30000000 = true ∧ get_duration 0 30000000 = -30000000 := by
  have key : ∀ expire now : Int,
      is_expired expire now = true ↔ get_duration expire now < 0 := by
    intro expire now
    unfold is_expired timedelta_days
    constructor
    · intro h
      by_contra hge
      push_neg at hge
      have h2 : 0 ≤ (get_duration expire now).fdiv microsecondsPerDay :=
        Int.fdiv_nonneg hge (by decide)
      simp only [decide_eq_true_eq] at h
      omega
    · intro h
      have h2 : (get_duration expire now).fdiv microsecondsPerDay < 0 :=
        Int.fdiv_neg' h (by decide)
      simp only [decide_eq_true_eq]
      exact h2
  refine ⟨key, ?_, ?_, ?_⟩
  · intro t
    have h := key t t
    simp only [get_duration, sub_self] at h
    cases hb : is_expired t t
    · rfl
    · exact absurd ((h.mp) hb) (by omega)
  · decide
  · decide

/-- Claim C5: authenticate(username, password) fails on any non-200
auth-endpoint status with the authentication error whose message
carries the response body text, producing no token; on a 200 response
the returned token string is decoded immediately at construction. -/
theorem C5_authenticate_classification
    (decode : String → DecodedToken) (resp : AuthResponse) :
    (resp.status ≠ 200 →
      auth_init decode resp =
        .authenticationError
          (("Got status " ++ toString resp.status ++ ": '") ++
            resp.text ++ "'")) ∧
    (resp.status = 200 →
      auth_init decode resp = .token resp.text (decode resp.text)) := by
  constructor
  · intro h
    simp [auth_init, h]
  · intro h
    simp [auth_init, h]

/-- Witness for C5: a 400 response with body text bad yields the
authentication failure with the body embedded in the message, and a
200 response yields the decoded token. -/
theorem C5_authenticate_classification_witness :
    (auth_init (fun _ => ⟨0, 0⟩) ⟨400, "bad"⟩ =
      .authenticationError (("Got status " ++ toString 400 ++ ": '") ++
        "bad" ++ "'")) ∧
    (auth_init (fun _ => ⟨0, 0⟩) ⟨200, "tok"⟩ =
      .token "tok" ((fun _ => (⟨0, 0⟩ : DecodedToken)) "tok")) :=
  ⟨(C5_authenticate_classification (fun _ => ⟨0, 0⟩) ⟨400, "bad"⟩).1
      (by decide),
    (C5_authenticate_classification (fun _ => ⟨0, 0⟩) ⟨200, "tok"⟩).2 rfl⟩

/-- Claim C1: every verb call that receives a response classifies a
failure three ways by status code: any 5xx status gives the
ConnectionError class error, any 4xx status gives the DataError class
error (a distinct class), any other status different from the verb
expected success code (200 for GET, 201 for POST, 200 or 204 for
PATCH, PUT and DELETE) gives the generic mismatch failure carrying the
response body, distinct from both classes; exactly the expected code
is a success. -/
theorem C1_status_classification
    (v : Verb) (expected : Nat) (hexp : expected ∈ expectedStatuses v)
    (st : ClientState) (wire : HttpResponse) :
    (500 ≤ wire.status ∧ wire.status ≤ 599 →
      (makeRequest false st expected wire).1 =
        .error (.usiConnectionError wire.text)) ∧
    (400 ≤ wire.status ∧ wire.status ≤ 499 →
      (makeRequest false st expected wire).1 =
        .error (.usiDataError wire.text)) ∧
    ((wire.status < 400 ∨ 600 ≤ wire.status) → wire.status ≠ expected →
      (makeRequest false st expected wire).1 =
        .error (.statusMismatch wire.text)) ∧
    ((makeRequest false st expected wire).1 = .ok wire ↔
      wire.status = expected) ∧
    (∀ a b : String,
      RequestError.usiConnectionError a ≠ RequestError.usiDataError b) ∧
    (∀ a b : String,
      RequestError.statusMismatch a ≠ RequestError.usiConnectionError b) ∧
    (∀ a b : String,
      RequestError.statusMismatch a ≠ RequestError.usiDataError b) := by
  have hlt : expected < 400 := by
    cases v <;> simp [expectedStatuses] at hexp <;> omega
  refine ⟨?_, ?_, ?_, ?_, ?_, ?_, ?_⟩
  · rintro ⟨h1, h2⟩
    have h5 : wire.status / 100 = 5 := by omega
    simp [makeRequest, check_status, h5]
  · rintro ⟨h1, h2⟩
    have h4 : wire.status / 100 = 4 := by omega
    have h5 : ¬ wire.status / 100 = 5 := by omega
    simp [makeRequest, check_status, h4, h5]
  · intro hrange hne
    have h4 : ¬ wire.status / 100 = 4 := by omega
    have h5 : ¬ wire.status / 100 = 5 := by omega
    simp [makeRequest, check_status, h4, h5, hne]
  · constructor
    · intro h
      by_contra hne
      have h4 : wire.status / 100 = 4 ∨ ¬ wire.status / 100 = 4 := em _
      rcases h4 with h4 | h4
      · have h5 : ¬ wire.status / 100 = 5 := by omega
        simp [makeRequest, check_status, h4, h5] at h
      · rcases em (wire.status / 100 = 5) with h5 | h5
        · simp [makeRequest, check_status, h5] at h
        · simp [makeRequest, check_status, h4, h5, hne] at h
    · intro h
      have h4 : ¬ expected / 100 = 4 := by omega
      have h5 : ¬ expected / 100 = 5 := by omega
      simp [makeRequest, check_status, h, h4, h5]
  · intro a b hab
    exact RequestError.noConfusion hab
  · intro a b hab
    exact RequestError.noConfusion hab
  · intro a b hab
    exact RequestError.noConfusion hab

/-- Witness for C1: on a GET (expected 200), a 500 response raises the
ConnectionError class error, a 404 response raises the DataError class
error, and a 201 response (wrong but not an error status) raises the
generic mismatch error. -/
theorem C1_status_classification_witness :
    ((makeRequest false ⟨none, none⟩ 200 ⟨500, "boom"⟩).1 =
      .error (.usiConnectionError "boom")) ∧
    ((makeRequest false ⟨none, none⟩ 200 ⟨404, "miss"⟩).1 =
      .error (.usiDataError "miss")) ∧
    ((makeRequest false ⟨none, none⟩ 200 ⟨201, "odd"⟩).1 =
      .error (.statusMismatch "odd")) ∧
    ((makeRequest false ⟨none, none⟩ 200 ⟨200, "ok"⟩).1 =
      .ok ⟨200, "ok"⟩) :=
  ⟨(C1_status_classification .get 200 (by decide) ⟨none, none⟩
      ⟨500, "boom"⟩).1 (by decide),
    (C1_status_classification .get 200 (by decide) ⟨none, none⟩
      ⟨404, "miss"⟩).2.1 (by decide),
    (C1_status_classification .get 200 (by decide) ⟨none, none⟩
      ⟨201, "odd"⟩).2.2.1 (by decide) (by decide),
    (C1_status_classification .get 200 (by decide) ⟨none, none⟩
      ⟨200, "ok"⟩).2.2.2.1.mpr rfl⟩

/-- Claim C3: every verb call made while the held token is expired
fails with TokenExpiredError before any network request is issued: no
HTTP request is performed (the request count is zero) and the recorded
last response and status code are unchanged. -/
theorem C3_expired_token_fails_before_network
    (v : Verb) (st : ClientState) (wire : HttpResponse) :
    makeRequest true st (defaultExpected v) wire =
      (.error (.tokenExpired "Your token is expired"), st, 0) := by
  simp [makeRequest]

/-! ## HAL documents and pagination (pyUSIrest/document.py)

A HAL document as the library reads it: the _links dictionary mapping a
relation name to the href of its target (the href wrapper dictionary is
flattened to the url string), and the _embedded dictionary mapping a
collection name to the ordered raw records of the page.  The embedded
field is an Option: none models a response body with no _embedded key
at all, which Document.init leaves as the empty default.

Document.parse_response (pyUSIrest/document.py) is a generator: it
yields the parsed body first, then, while the _links dictionary of the
current body holds a next relation, performs a GET on its href and
yields the parsed body of each further page.  The transport is the
oracle fetch; the recursion is bounded by an explicit fuel, and the
pagination theorems assume fuel at least the page count. -/

structure HALDoc where
  links : List (String × String)
  embedded? : Option (List (String × List PyVal))

/-- The pages fetched after the first one: while the current page has a
next link, follow it and yield the fetched page. -/
def paginateFrom (fetch : String → HALDoc) : Nat → HALDoc → List HALDoc
  | 0, _ => []
  | fuel + 1, d =>
    match d.links.lookup "next" with
    | none => []
    | some url => fetch url :: paginateFrom fetch fuel (fetch url)

/-- Document.parse_response: yield the current document first, then the
pages reached by following next links. -/
def parse_response (fuel : Nat) (d : HALDoc) (fetch : String → HALDoc) :
    List HALDoc :=
  d :: paginateFrom fetch fuel d

/-- The embedded collection under a given relation name, read totally:
missing dictionary or missing key give the empty sequence. -/
def embCollection (key : String) (d : HALDoc) : List PyVal :=
  ((d.embedded?.getD []).lookup key).getD []

/-- A wellformed chain of result pages starting at a document: either
the document has no next link and is the only page, or its next link
fetches the head of the remaining chain. -/
inductive PageChain (fetch : String → HALDoc) : HALDoc → List HALDoc → Prop
  | last (d : HALDoc) (hnone : d.links.lookup "next" = none) :
      PageChain fetch d [d]
  | step (d d' : HALDoc) (url : String) (rest : List HALDoc)
      (hlink : d.links.lookup "next" = some url)
      (hfetch : fetch url = d')
      (hrest : PageChain fetch d' rest) :
      PageChain fetch d (d :: rest)

theorem PageChain.length_pos {fetch : String → HALDoc} {d : HALDoc}
    {ps : List HALDoc} (h : PageChain fetch d ps) : 0 < ps.length := by
  cases h <;> simp

theorem paginateFrom_no_next {d : HALDoc} (fetch : String → HALDoc)
    (hnone : d.links.lookup "next" = none) :
    ∀ fuel, paginateFrom fetch fuel d = [] := by
  intro fuel
  cases fuel with
  | zero => rfl
  | succ n => simp [paginateFrom, hnone]

theorem parse_response_chain (fetch : String → HALDoc) {d : HALDoc}
    {ps : List HALDoc} (h : PageChain fetch d ps) :
    ∀ fuel, ps.length ≤ fuel + 1 → parse_response fuel d fetch = ps := by
  induction h with
  | last d hnone =>
      intro fuel _
      simp [parse_response, paginateFrom_no_next fetch hnone]
  | step d d' url rest hlink hfetch hrest ih =>
      intro fuel hlen
      have hpos : 0 < rest.length := hrest.length_pos
      simp only [List.length_cons] at hlen
      obtain ⟨f, rfl⟩ : ∃ f, fuel = f + 1 := by
        cases fuel with
        | zero => omega
        | succ n => exact ⟨n, rfl⟩
      have ihf := ih f (by omega)
      simp only [parse_response] at ihf ⊢
      simp [paginateFrom, hlink, hfetch, ihf]

/-- Claim C4: paginate yields the document it is invoked on first, then
one document per page following the next relation, and stops when next
is absent; over any wellformed page chain the yielded documents are
exactly the pages in order, so a 2 page result set yields exactly 2
documents and a 1 page result set yields exactly 1, and the
concatenation of the embedded collections of the yielded documents
equals the concatenation over the full result set. -/
theorem C4_paginate_yields_chain (fetch : String → HALDoc) (d : HALDoc)
    (ps : List HALDoc) (fuel : Nat) (key : String)
    (hchain : PageChain fetch d ps) (hfuel : ps.length ≤ fuel + 1) :
    parse_response fuel d fetch = ps ∧
    (parse_response fuel d fetch).head? = some d ∧
    (parse_response fuel d fetch).length = ps.length ∧
    ((parse_response fuel d fetch).map (embCollection key)).flatten =
      (ps.map (embCollection key)).flatten := by
  have h := parse_response_chain fetch hchain fuel hfuel
  exact ⟨h, by simp [parse_response], by rw [h], by rw [h]⟩

def c4page2 : HALDoc :=
  ⟨[("self", "u2")], some [("submissions", [.str "s3"])]⟩

def c4page1 : HALDoc :=
  ⟨[("next", "u2"), ("self", "u1")],
    some [("submissions", [.str "s1", .str "s2"])]⟩

def c4fetch : String → HALDoc := fun _ => c4page2

/-- Witness for C4: on a concrete 2 page result set (page 1 has a next
link, page 2 does not) paginate yields exactly the two pages in order
and the concatenation of their embedded submissions equals the full
result set; on the 1 page result set it yields exactly that page. -/
theorem C4_paginate_yields_chain_witness :
    parse_response 1 c4page1 c4fetch = [c4page1, c4page2] ∧
    ((parse_response 1 c4page1 c4fetch).map
      (embCollection "submissions")).flatten =
      [.str "s1", .str "s2", .str "s3"] ∧
    parse_response 1 c4page2 c4fetch = [c4page2] := by
  have hchain2 : PageChain c4fetch c4page2 [c4page2] :=
    PageChain.last c4page2 (by decide)
  have hchain1 : PageChain c4fetch c4page1 [c4page1, c4page2] :=
    PageChain.step c4page1 c4page2 "u2" [c4page2] (by decide) rfl hchain2
  have h1 := (C4_paginate_yields_chain c4fetch c4page1 [c4page1, c4page2]
    1 "submissions" hchain1 (by decide)).1
  have h2 := (C4_paginate_yields_chain c4fetch c4page2 [c4page2]
    1 "submissions" hchain2 (by decide)).1
  refine ⟨h1, ?_, h2⟩
  rw [h1]
  rfl

/-! ## Embedded collection access (pyUSIrest/usi.py)

Submission.get_samples builds the contents/samples url of the
submission, reads it into a fresh document, and, when the response body
has no _embedded key at all, returns at once with zero samples after a
warning; otherwise it walks the pages and yields the records of the
samples collection of each page (filters disabled, their defaults).
Root.get_user_submissions follows the userSubmissions relation and,
when the submissions key is missing from the _embedded dictionary of
the first page, returns at once with zero submissions after a warning;
otherwise it walks the pages and yields the records of the submissions
collection of each page.  A page whose collection key is missing while
iterating raises a KeyError in Python, modelled as the none result of
the option-valued page read. -/

def embCollectionStrict (key : String) (d : HALDoc) :
    Option (List PyVal) :=
  d.embedded?.bind (fun entries => entries.lookup key)

/-- Concatenate the records of the named collection over a page list;
none when some page lacks the key (a Python KeyError). -/
def collectPages (key : String) : List HALDoc → Option (List PyVal)
  | [] => some []
  | d :: rest =>
    match embCollectionStrict key d, collectPages key rest with
    | some page, some tail => some (page ++ tail)
    | _, _ => none

def get_samples (fuel : Nat) (doc : HALDoc) (fetch : String → HALDoc) :
    Option (List PyVal) :=
  if doc.embedded?.isNone then some []
  else collectPages "samples" (parse_response fuel doc fetch)

def get_user_submissions (fuel : Nat) (doc : HALDoc)
    (fetch : String → HALDoc) : Option (List PyVal) :=
  if (embCollectionStrict "submissions" doc).isNone then some []
  else collectPages "submissions" (parse_response fuel doc fetch)

/-- Claim C8: a samples request whose response body has the embedded
collection key entirely absent yields zero items and returns normally,
the same caller visible result as an empty collection; likewise user
submissions with the submissions key absent from the embedded
dictionary. -/
theorem C8_absent_embedded_collection (fuel : Nat) (doc : HALDoc)
    (fetch : String → HALDoc) :
    (doc.embedded? = none → get_samples fuel doc fetch = some []) ∧
    (doc.links.lookup "next" = none →
      doc.embedded? = some [("samples", [])] →
      get_samples fuel doc fetch = some []) ∧
    (embCollectionStrict "submissions" doc = none →
      get_user_submissions fuel doc fetch = some []) ∧
    (doc.links.lookup "next" = none →
      doc.embedded? = some [("submissions", [])] →
      get_user_submissions fuel doc fetch = some []) := by
  refine ⟨?_, ?_, ?_, ?_⟩
  · intro h
    simp [get_samples, h]
  · intro hnext hemb
    have hpag := paginateFrom_no_next fetch hnext fuel
    simp [get_samples, hemb, parse_response, hpag, collectPages,
      embCollectionStrict, List.lookup]
  · intro h
    simp [get_user_submissions, h]
  · intro hnext hemb
    have hpag := paginateFrom_no_next fetch hnext fuel
    simp [get_user_submissions, hemb, parse_response, hpag, collectPages,
      embCollectionStrict, List.lookup]

/-- Witness for C8: a response document with no embedded dictionary at
all yields zero samples and zero user submissions, exactly as does a
document whose collection is present but empty. -/
theorem C8_absent_embedded_collection_witness :
    get_samples 0 ⟨[], none⟩ (fun _ => ⟨[], none⟩) = some [] ∧
    get_samples 0 ⟨[], some [("samples", [])]⟩ (fun _ => ⟨[], none⟩) =
      some [] ∧
    get_user_submissions 0 ⟨[], none⟩ (fun _ => ⟨[], none⟩) = some [] ∧
    get_user_submissions 0 ⟨[], some [("submissions", [])]⟩
      (fun _ => ⟨[], none⟩) = some [] :=
  ⟨(C8_absent_embedded_collection 0 ⟨[], none⟩ _).1 rfl,
    (C8_absent_embedded_collection 0 ⟨[], some [("samples", [])]⟩ _).2.1
      rfl rfl,
    (C8_absent_embedded_collection 0 ⟨[], none⟩ _).2.2.1 rfl,
    (C8_absent_embedded_collection 0 ⟨[], some [("submissions", [])]⟩
      _).2.2.2 rfl rfl⟩

/-! ## Url handling (pyUSIrest/usi.py Submission.read_data,
pyUSIrest/client.py Document.clean_url and Document.follow_self_url)

Python strings are embedded as lists of characters so that the standard
library operations used by the source keep their exact semantics:
str.split on a separator, indexing the last piece, the substring test
of the in operator, and str.replace which rewrites every non
overlapping occurrence left to right. -/

/-- Python substring test (the in operator on str). -/
def hasSubstr (pat : List Char) : List Char → Bool
  | [] => pat.isEmpty
  | c :: rest => pat.isPrefixOf (c :: rest) || hasSubstr pat rest

/-- Python str.replace, fuel-structured on the scanned length: rewrite
every non overlapping occurrence of pat from the left. -/
def pyReplaceAux (pat rep : List Char) : Nat → List Char → List Char
  | 0, s => s
  | _ + 1, [] => []
  | fuel + 1, c :: rest =>
    if pat ≠ [] ∧ pat.isPrefixOf (c :: rest) then
      rep ++ pyReplaceAux pat rep fuel (rest.drop (pat.length - 1))
    else
      c :: pyReplaceAux pat rep fuel rest

def pyReplace (s pat rep : List Char) : List Char :=
  pyReplaceAux pat rep s.length s

/-- Python str.split on a single separator character. -/
def pySplitAux (sep : Char) : List Char → List Char → List (List Char)
  | [], acc => [acc.reverse]
  | c :: rest, acc =>
    if c = sep then acc.reverse :: pySplitAux sep rest []
    else pySplitAux sep rest (c :: acc)

def pySplit (sep : Char) (s : List Char) : List (List Char) :=
  pySplitAux sep s []

/-- The template marker the API attaches to self urls. -/
def PROJECTION : List Char := "\x7b?projection\x7d".data

/-- Document.clean_url: when the marker occurs in the url, replace it
with the empty string. -/
def clean_url (url : List Char) : List Char :=
  if hasSubstr PROJECTION url then pyReplace url PROJECTION [] else url

/-- Submission.read_data: when the links hold a self relation, the name
becomes the last slash separated piece of its href, with the marker
replaced by the empty string when it occurs. -/
def readDataName (links : List (String × List Char)) :
    Option (List Char) :=
  match links.lookup "self" with
  | none => none
  | some href =>
    let name := (pySplit '/' href).getLastD []
    some (if hasSubstr PROJECTION name
      then pyReplace name PROJECTION [] else name)

/-- Document.follow_self_url: the url actually dereferenced is the self
href passed through clean_url. -/
def follow_self_target (links : List (String × List Char)) :
    Option (List Char) :=
  (links.lookup "self").map clean_url

theorem pyReplaceAux_of_not_hasSubstr (pat rep : List Char) :
    ∀ (fuel : Nat) (s : List Char), hasSubstr pat s = false →
      pyReplaceAux pat rep fuel s = s := by
  intro fuel
  induction fuel with
  | zero => intro s _; rfl
  | succ n ih =>
    intro s hs
    cases s with
    | nil => rfl
    | cons c rest =>
      simp only [hasSubstr, Bool.or_eq_false_iff] at hs
      obtain ⟨hpre, hrest⟩ := hs
      rw [pyReplaceAux]
      have hcond : ¬ (pat ≠ [] ∧ pat.isPrefixOf (c :: rest)) := by
        rintro ⟨_, hp⟩
        rw [hpre] at hp
        exact Bool.noConfusion hp
      rw [if_neg hcond]
      rw [ih rest hrest]

theorem pyReplace_of_not_hasSubstr (s pat rep : List Char)
    (h : hasSubstr pat s = false) : pyReplace s pat rep = s :=
  pyReplaceAux_of_not_hasSubstr pat rep s.length s h

/-- Claim C6: for every parsed resource document whose links contain
self, the resource name equals the final path segment of the self href
with the {?projection} marker removed (the conditional replacement of
the source equals the unconditional one), and follow_self_url strips
the marker from the self href before dereferencing it. -/
theorem C6_identity_last_segment_cleaned
    (links : List (String × List Char)) (href : List Char)
    (hself : links.lookup "self" = some href) :
    readDataName links =
      some (pyReplace ((pySplit '/' href).getLastD []) PROJECTION []) ∧
    follow_self_target links =
      some (pyReplace href PROJECTION []) ∧
    clean_url href = pyReplace href PROJECTION [] := by
  have hcond : ∀ u : List Char,
      (if hasSubstr PROJECTION u then pyReplace u PROJECTION [] else u) =
        pyReplace u PROJECTION [] := by
    intro u
    cases hu : hasSubstr PROJECTION u
    · simp only [Bool.false_eq_true, if_false]
      exact (pyReplace_of_not_hasSubstr u _ _ hu).symm
    · simp
  have hclean : ∀ u : List Char, clean_url u = pyReplace u PROJECTION [] := by
    intro u
    unfold clean_url
    exact hcond u
  refine ⟨?_, ?_, hclean href⟩
  · unfold readDataName
    rw [hself]
    show some (if hasSubstr PROJECTION ((pySplit '/' href).getLastD [])
        then pyReplace ((pySplit '/' href).getLastD []) PROJECTION []
        else (pySplit '/' href).getLastD []) =
      some (pyReplace ((pySplit '/' href).getLastD []) PROJECTION [])
    rw [hcond]
  · unfold follow_self_target
    rw [hself]
    simp only [Option.map]
    rw [hclean href]

def c6links : List (String × List Char) :=
  [("self", "api/submissions/abc\x7b?projection\x7d".data)]

/-- Witness for C6: on a concrete self link holding the template
marker, the computed name is the last path segment stripped of the
marker, and the dereferenced self url is stripped of the marker. -/
theorem C6_identity_last_segment_cleaned_witness :
    (readDataName c6links =
      some (pyReplace
        ((pySplit '/' "api/submissions/abc\x7b?projection\x7d".data
          ).getLastD []) PROJECTION []) ∧
      follow_self_target c6links =
        some (pyReplace "api/submissions/abc\x7b?projection\x7d".data
          PROJECTION []) ∧
      clean_url "api/submissions/abc\x7b?projection\x7d".data =
        pyReplace "api/submissions/abc\x7b?projection\x7d".data
          PROJECTION []) ∧
    readDataName c6links = some "abc".data := by
  have h := C6_identity_last_segment_cleaned c6links
    "api/submissions/abc\x7b?projection\x7d".data rfl
  exact ⟨h, by decide⟩

/-! ## By-name lookups (pyUSIrest/usi.py Root.get_team_by_name and
User.get_domain_by_name)

Both walk the candidate sequence in order, return the first object
whose name equals the requested one, and after exhausting the sequence
raise NameError with the requested name formatted into the message. -/

structure TeamRec where
  name : String

structure DomainRec where
  domainName : String

def get_team_by_name : List TeamRec → String → Except String TeamRec
  | [], team_name => .error ("team: " ++ team_name ++ " not found")
  | t :: rest, team_name =>
    if t.name = team_name then .ok t else get_team_by_name rest team_name

def get_domain_by_name : List DomainRec → String → Except String DomainRec
  | [], domain_name => .error ("domain: " ++ domain_name ++ " not found")
  | d :: rest, domain_name =>
    if d.domainName = domain_name then .ok d
    else get_domain_by_name rest domain_name

/-- Claim C7: a by-name lookup whose candidate sequence holds no
element with the requested name raises the name-not-found error with
the requested name embedded in the message after exhausting the whole
sequence, and when some candidate matches, the first matching object is
returned; stated for the team lookup and the domain lookup. -/
theorem C7_lookup_by_name (team_name domain_name : String)
    (teams : List TeamRec) (domains : List DomainRec) :
    ((∀ t ∈ teams, t.name ≠ team_name) →
      get_team_by_name teams team_name =
        .error (("team: " ++ team_name) ++ " not found")) ∧
    (∀ pre t post, teams = pre ++ t :: post → t.name = team_name →
      (∀ u ∈ pre, u.name ≠ team_name) →
      get_team_by_name teams team_name = .ok t) ∧
    ((∀ d ∈ domains, d.domainName ≠ domain_name) →
      get_domain_by_name domains domain_name =
        .error (("domain: " ++ domain_name) ++ " not found")) ∧
    (∀ pre d post, domains = pre ++ d :: post →
      d.domainName = domain_name →
      (∀ u ∈ pre, u.domainName ≠ domain_name) →
      get_domain_by_name domains domain_name = .ok d) := by
  refine ⟨?_, ?_, ?_, ?_⟩
  · intro hnone
    induction teams with
    | nil => rfl
    | cons t rest ih =>
      have ht : t.name ≠ team_name := hnone t (by simp)
      simp only [get_team_by_name, if_neg ht]
      exact ih (fun u hu => hnone u (by simp [hu]))
  · intro pre t post hsplit hmatch hpre
    subst hsplit
    induction pre with
    | nil =>
      simp only [List.nil_append, get_team_by_name, if_pos hmatch]
    | cons u rest ih =>
      have hu : u.name ≠ team_name := hpre u (by simp)
      simp only [List.cons_append, get_team_by_name, if_neg hu]
      exact ih (fun w hw => hpre w (by simp [hw]))
  · intro hnone
    induction domains with
    | nil => rfl
    | cons d rest ih =>
      have hd : d.domainName ≠ domain_name := hnone d (by simp)
      simp only [get_domain_by_name, if_neg hd]
      exact ih (fun u hu => hnone u (by simp [hu]))
  · intro pre d post hsplit hmatch hpre
    subst hsplit
    induction pre with
    | nil =>
      simp only [List.nil_append, get_domain_by_name, if_pos hmatch]
    | cons u rest ih =>
      have hu : u.domainName ≠ domain_name := hpre u (by simp)
      simp only [List.cons_append, get_domain_by_name, if_neg hu]
      exact ih (fun w hw => hpre w (by simp [hw]))

/-- Witness for C7: looking a missing name up in a concrete one team
listing raises the not-found error carrying the name; looking a
present name up returns the first matching team; same for domains. -/
theorem C7_lookup_by_name_witness :
    get_team_by_name [⟨"subs.dev-team-1"⟩] "subs.dev-team-2" =
      .error (("team: " ++ "subs.dev-team-2") ++ " not found") ∧
    get_team_by_name [⟨"subs.dev-team-1"⟩] "subs.dev-team-1" =
      .ok ⟨"subs.dev-team-1"⟩ ∧
    get_domain_by_name [⟨"dom.a"⟩] "dom.b" =
      .error (("domain: " ++ "dom.b") ++ " not found") ∧
    get_domain_by_name [⟨"dom.a"⟩, ⟨"dom.b"⟩] "dom.b" = .ok ⟨"dom.b"⟩ :=
  ⟨(C7_lookup_by_name "subs.dev-team-2" "x" [⟨"subs.dev-team-1"⟩] []).1
      (by decide),
    (C7_lookup_by_name "subs.dev-team-1" "x" [⟨"subs.dev-team-1"⟩]
        []).2.1 [] ⟨"subs.dev-team-1"⟩ [] rfl rfl (by simp),
    (C7_lookup_by_name "x" "dom.b" [] [⟨"dom.a"⟩]).2.2.1 (by decide),
    (C7_lookup_by_name "x" "dom.b" [] [⟨"dom.a"⟩, ⟨"dom.b"⟩]).2.2.2
      [⟨"dom.a"⟩] ⟨"dom.b"⟩ [] rfl rfl (by decide)⟩

/-! ## Team property (pyUSIrest/usi.py TeamMixin.team and
pyUSIrest/client.py Submission.team)

The stored team value is type-switched at read time: a str is returned
as is, a dict yields its name entry, None yields the empty string, and
any other type raises NotImplementedError; a dict without a name entry
raises KeyError in Python, modelled as the keyError constructor. -/

inductive TeamReadError where
  | keyError
  | notImplementedError

def team_get : PyVal → Except TeamReadError PyVal
  | .str s => .ok (.str s)
  | .dict entries =>
    match entries.lookup "name" with
    | some v => .ok v
    | none => .error .keyError
  | .null => .ok (.str "")
  | _ => .error .notImplementedError

/-- Claim C9: reading the team property is total over the three
supported shapes and normalizes them: a stored string is returned
itself, a stored mapping yields its name entry, an unset (None) value
yields the empty string, and a stored value of any other type raises
the NotImplementedError class failure. -/
theorem C9_team_property (s : String) (entries : List (String × PyVal))
    (w : PyVal) (n : Int) (b : Bool) (xs : List PyVal) :
    team_get (.str s) = .ok (.str s) ∧
    (entries.lookup "name" = some w →
      team_get (.dict entries) = .ok w) ∧
    team_get .null = .ok (.str "") ∧
    team_get (.int n) = .error .notImplementedError ∧
    team_get (.bool b) = .error .notImplementedError ∧
    team_get (.list xs) = .error .notImplementedError := by
  refine ⟨rfl, ?_, rfl, rfl, rfl, rfl⟩
  intro h
  simp [team_get, h]

/-- Witness for C9: concrete reads of the three supported shapes and of
an unsupported one. -/
theorem C9_team_property_witness :
    team_get (.str "subs.test-team-1") = .ok (.str "subs.test-team-1") ∧
    team_get (.dict [("name", .str "subs.test-team-1")]) =
      .ok (.str "subs.test-team-1") ∧
    team_get .null = .ok (.str "") ∧
    team_get (.int 3) = .error .notImplementedError := by
  have h := C9_team_property "subs.test-team-1"
    [("name", .str "subs.test-team-1")] (.str "subs.test-team-1") 3
    true []
  exact ⟨h.1, h.2.1 rfl, h.2.2.1, h.2.2.2.1⟩

/-! ## Release date completion (pyUSIrest/usi.py check_releasedate)

check_releasedate copies the sample data and, when the releaseDate key
is missing, adds it mapped to the current date rendered as a string;
the current date is the explicit argument today. -/

def check_releasedate (today : String)
    (sample_data : List (String × PyVal)) : List (String × PyVal) :=
  if (sample_data.lookup "releaseDate").isSome then sample_data
  else sample_data ++ [("releaseDate", .str today)]

theorem lookup_append_right {α β : Type} [BEq α] (k : α)
    (l₁ l₂ : List (α × β)) (h : l₁.lookup k = none) :
    (l₁ ++ l₂).lookup k = l₂.lookup k := by
  induction l₁ with
  | nil => rfl
  | cons p rest ih =>
    rw [List.cons_append]
    rw [List.lookup] at h ⊢
    cases hk : (k == p.1) with
    | true => rw [hk] at h; exact Option.noConfusion h
    | false =>
      rw [hk] at h
      exact ih h

/-- Claim C10: check_releasedate always returns a mapping containing
the releaseDate key; when the key is present already the input is
returned unchanged, otherwise the input extended with releaseDate
mapped to the rendered current date; hence applying it twice equals
applying it once. -/
theorem C10_check_releasedate (today later : String)
    (sample_data : List (String × PyVal)) :
    ((check_releasedate today sample_data).lookup "releaseDate").isSome ∧
    ((sample_data.lookup "releaseDate").isSome →
      check_releasedate today sample_data = sample_data) ∧
    (sample_data.lookup "releaseDate" = none →
      check_releasedate today sample_data =
        sample_data ++ [("releaseDate", .str today)]) ∧
    check_releasedate later (check_releasedate today sample_data) =
      check_releasedate today sample_data := by
  have habs : sample_data.lookup "releaseDate" = none →
      ((sample_data ++ [("releaseDate", PyVal.str today)]).lookup
        "releaseDate") = some (.str today) := by
    intro h
    rw [lookup_append_right "releaseDate" sample_data _ h]
    simp [List.lookup]
  have hkey : ((check_releasedate today sample_data).lookup
      "releaseDate").isSome := by
    unfold check_releasedate
    cases hp : sample_data.lookup "releaseDate" with
    | none =>
      rw [if_neg (by simp)]
      rw [habs hp]
      rfl
    | some v =>
      rw [if_pos (by simp)]
      simp [hp]
  refine ⟨hkey, ?_, ?_, ?_⟩
  · intro h
    unfold check_releasedate
    rw [if_pos h]
  · intro h
    unfold check_releasedate
    rw [if_neg (by simp [h])]
  · generalize hg : check_releasedate today sample_data = r at hkey ⊢
    unfold check_releasedate
    rw [if_pos hkey]

/-- Witness for C10: a sample mapping without releaseDate gains the key
mapped to the rendered date, one with the key is unchanged, and a
second application changes nothing. -/
theorem C10_check_releasedate_witness :
    check_releasedate "2020-01-10" [("alias", .str "s1")] =
      [("alias", .str "s1")] ++ [("releaseDate", .str "2020-01-10")] ∧
    check_releasedate "2020-01-10"
        [("releaseDate", .str "2019-01-01")] =
      [("releaseDate", .str "2019-01-01")] ∧
    check_releasedate "2020-02-20" (check_releasedate "2020-01-10"
        [("alias", .str "s1")]) =
      check_releasedate "2020-01-10" [("alias", .str "s1")] := by
  have h1 := C10_check_releasedate "2020-01-10" "2020-02-20"
    [("alias", .str "s1")]
  have h2 := C10_check_releasedate "2020-01-10" "x"
    [("releaseDate", .str "2019-01-01")]
  exact ⟨h1.2.2.1 rfl, h2.2.1 rfl, h1.2.2.2⟩
